import Mathlib

/-!
Verification of the `gcsenhancer` package (`src/gcs_enhancer.go`) against its
natural-language specification.

The Go code is shallowly embedded:
* Go strings are Lean `String`s; where Go operates on the raw UTF-8 bytes of a
  string (the `net/url` escaper indexes bytes), the byte sequence is recovered
  with an explicit UTF-8 encoder `strBytes`.
* `time.Now().Format("20060102150405")` (a second-resolution wall-clock stamp)
  is modelled by an explicit `now : String` parameter: every stamping call that
  happens within the same wall-clock second receives the same `now`.
* The external collaborators (the GCS client's per-object upload, the image
  encoders from `image/png`, `image/jpeg`, `image/gif`) are oracle parameters:
  `upload : ObjectInfo → Except GoError String` and an `Encoders` record.
* The goroutine/channel machinery of `uploadMultiple` is embedded as a small
  step relation (`step`/`run`) over an explicit machine state `MState`, with a
  scheduler choice list standing for the nondeterministic interleaving.
  Go's channel semantics are kept: the `quit`, `errChan` and `linkChan`
  channels are capacity-1 buffers, a send blocks while the buffer is full, a
  receive blocks while it is empty, and closing an already-closed channel
  panics.
-/


/-- Go `error` values, abstracted to their message. -/
abbrev GoError := String

/-! ### Filename stamping (`AppendUnixTimeStampToFilename`, `appendThumbnailStamp`) -/

/-- `splitDot l` is Go's `strings.Split(string(l), ".")` at the character
level: the maximal sequence of segments separated by `'.'`.  As in Go, the
result is always non-empty and the empty string splits to `[[]]`. -/
def splitDot : List Char → List (List Char)
  | [] => [[]]
  | c :: cs =>
      match splitDot cs with
      | [] => [[]]
      | h :: t => if c = '.' then [] :: h :: t else (c :: h) :: t

/-- Go source, line 91-96: `AppendUnixTimeStampToFilename` splits the filename
on `"."`, and rebuilds `secs[0] ++ "_" ++ timeFactor ++ "." ++ secs[len-1]`.
`now` stands for `time.Now().Format("20060102150405")`. -/
def AppendUnixTimeStampToFilename (now : String) (filename : String) : String :=
  let secs := splitDot filename.data
  String.mk (secs.headD []) ++ "_" ++ now ++ "." ++ String.mk (secs.getLastD [])

/-- Go source, line 98-102: `appendThumbnailStamp` splits the filename on `"."`
and rebuilds `secs[0] ++ "_thumbnail." ++ secs[len-1]`. -/
def appendThumbnailStamp (filename : String) : String :=
  let secs := splitDot filename.data
  String.mk (secs.headD []) ++ "_thumbnail." ++ String.mk (secs.getLastD [])

/-- Joining dot-free segments with literal dots; the inverse construction used
to state what `splitDot` does on a filename with a given segment structure. -/
def joinDot : List (List Char) → List Char
  | [] => []
  | [p] => p
  | p :: q :: rest => p ++ '.' :: joinDot (q :: rest)

/-! ### Link formatter (`GCSPublicHost`, `ObjectLink`)

`ObjectLink` (Go source, lines 42-50) builds
`url.URL{Scheme: "https", Host: GCSPublicHost, Path: bucket ++ "/" ++ name}`
and returns `u.String()`.  `url.URL.String` writes `"https:"`, then `"//"` and
the host, then the escaped path (`escape(path, encodePath)`, which
percent-encodes every byte for which `shouldEscape(c, encodePath)` holds),
preceded by `"/"` when the escaped path is non-empty, does not already start
with `'/'`, and the host is non-empty.  The escaper works on the UTF-8 bytes
of the path, so the byte sequence is made explicit. -/

/-- The UTF-8 bytes of a character (what indexing a Go string yields). -/
def utf8Bytes (c : Char) : List Nat :=
  let n := c.toNat
  if n < 0x80 then [n]
  else if n < 0x800 then [0xC0 + n / 0x40, 0x80 + n % 0x40]
  else if n < 0x10000 then
    [0xE0 + n / 0x1000, 0x80 + n / 0x40 % 0x40, 0x80 + n % 0x40]
  else
    [0xF0 + n / 0x40000, 0x80 + n / 0x1000 % 0x40, 0x80 + n / 0x40 % 0x40,
      0x80 + n % 0x40]

/-- The UTF-8 byte sequence of a string, as Go sees it. -/
def strBytes (s : String) : List Nat :=
  s.data.flatMap utf8Bytes

/-- Go `net/url`, `shouldEscape(c, encodePath)`: alphanumerics, `-_.~` and the
reserved characters `$&+,/:;=@` stay; `?` and every other byte are escaped. -/
def shouldEscapePath (b : Nat) : Bool :=
  if (97 ≤ b ∧ b ≤ 122) ∨ (65 ≤ b ∧ b ≤ 90) ∨ (48 ≤ b ∧ b ≤ 57) then false
  else if b = 45 ∨ b = 95 ∨ b = 46 ∨ b = 126 then false
  else if b = 36 ∨ b = 38 ∨ b = 43 ∨ b = 44 ∨ b = 47 ∨ b = 58 ∨ b = 59 ∨
      b = 61 ∨ b = 63 ∨ b = 64 then decide (b = 63)
  else true

/-- Upper-case hexadecimal digit byte, as Go's `upperhex` table. -/
def hexDigitUpper (n : Nat) : Nat :=
  if n < 10 then 48 + n else 55 + n

/-- Go `net/url`, `escape(s, encodePath)` at the byte level: each byte that
must be escaped becomes `'%'` plus two upper-case hex digits. -/
def escapePathBytes (bs : List Nat) : List Nat :=
  bs.flatMap fun b =>
    if shouldEscapePath b then [37, hexDigitUpper (b / 16), hexDigitUpper (b % 16)]
    else [b]

/-- Reassemble an ASCII byte sequence into a string (escaped paths are ASCII). -/
def bytesToString (bs : List Nat) : String :=
  String.mk (bs.map Char.ofNat)

/-- Go source, line 23: the public storage host constant. -/
def GCSPublicHost : String := "storage.googleapis.com"

/-- Go source, lines 42-50: `ObjectLink` renders
`url.URL{Scheme, Host, Path: bucket + "/" + name}.String()`. -/
def ObjectLink (bucket objName : String) : String :=
  let ep := escapePathBytes (strBytes (bucket ++ "/" ++ objName))
  "https://" ++ GCSPublicHost ++
    (if ep ≠ [] ∧ ep.headD 0 ≠ 47 then "/" else "") ++ bytesToString ep

/-- A character the Go path escaper leaves untouched: a single ASCII byte with
`shouldEscape(c, encodePath)` false. -/
def pathSafeChar (c : Char) : Bool :=
  c.toNat < 128 && !shouldEscapePath c.toNat

/-! ### Artifact preparation (`UploadImages`, lines 112-209)

The loop body of `UploadImages` derives the two destination names, encodes
both renderings with the mime-specific encoder, and builds up to two
`*ObjectInfo` values per image, which are appended (possibly as `nil`) to the
task list.  The image encoders are external collaborators and enter as an
`Encoders` oracle; a `nil` Go pointer is `none`. -/

/-- Go source, line 218-223: `type ImageSize string` with the two constants. -/
abbrev ImageSize := String

/-- Go source, line 221. -/
def Original : ImageSize := "original"

/-- Go source, line 222. -/
def Thumbnail : ImageSize := "thumbnail"

/-- Go source, line 225-229: an upload task.  The `Reader` payload is the
encoded byte buffer, abstracted to its contents. -/
structure ObjectInfo where
  Size : ImageSize
  Name : String
  Reader : String
deriving DecidableEq, Repr

/-- Go source, line 104-109: one logical input image. -/
structure Images (Img : Type) where
  Name : String
  Mime : String
  OrigImage : Img
  Thumbnail : Img

/-- Go `path/filepath.Base`: strip trailing separators, keep everything after
the last separator; `""` gives `"."`, an all-separator path gives `"/"`. -/
def filepathBase (path : String) : String :=
  if path = "" then "."
  else
    let stripped := (path.data.reverse.dropWhile (fun c => c = '/')).reverse
    let seg := (stripped.reverse.takeWhile (fun c => ¬ c = '/')).reverse
    if seg = [] then "/" else String.mk seg

/-- Go source, line 121: `origName := AppendUnixTimeStampToFilename(filepath.Base(img.Name))`. -/
def origTaskName (now : String) (name : String) : String :=
  AppendUnixTimeStampToFilename now (filepathBase name)

/-- Go source, line 122:
`thumbnailName := AppendUnixTimeStampToFilename(appendThumbnailStamp(filepath.Base(img.Name)))`. -/
def thumbTaskName (now : String) (name : String) : String :=
  AppendUnixTimeStampToFilename now (appendThumbnailStamp (filepathBase name))

/-- The external image encoders (`image/png` with a compression level,
`image/jpeg` with a quality, `image/gif` with default options), as pure
fallible oracles on an abstract image type. -/
structure Encoders (Img : Type) where
  pngEncodeBest : Img → Except GoError String
  jpegEncode : Nat → Img → Except GoError String
  gifEncode : Img → Except GoError String

/-- Go `image/jpeg.DefaultQuality`. -/
def jpegDefaultQuality : Nat := 75

/-- Go source, lines 119-202: one iteration of the `UploadImages` loop: the
`switch img.Mime` producing the `(origObj, thumbObj)` pointer pair.  The
`image/gif` arm reproduces the source exactly: the second `ObjectInfo` is
assigned to `origObj` again (with `Size: Thumbnail`, the *original* name and
the *original* buffer) and `thumbObj` is never assigned, staying `nil`; a mime
outside the three cases falls through the switch leaving both pointers `nil`
and producing no error. -/
def prepareImage {Img : Type} (E : Encoders Img) (now : String)
    (img : Images Img) : Except GoError (Option ObjectInfo × Option ObjectInfo) :=
  let origName := origTaskName now img.Name
  let thumbnailName := thumbTaskName now img.Name
  if img.Mime = "image/png" then do
    let origBuf ← E.pngEncodeBest img.OrigImage
    let origObj : Option ObjectInfo :=
      some { Size := Original, Name := origName, Reader := origBuf }
    let thumbBuf ← E.pngEncodeBest img.Thumbnail
    let thumbObj : Option ObjectInfo :=
      some { Size := Thumbnail, Name := thumbnailName, Reader := thumbBuf }
    return (origObj, thumbObj)
  else if img.Mime = "image/jpeg" then do
    let origBuf ← E.jpegEncode jpegDefaultQuality img.OrigImage
    let origObj : Option ObjectInfo :=
      some { Size := Original, Name := origName, Reader := origBuf }
    let thumbBuf ← E.jpegEncode 40 img.Thumbnail
    let thumbObj : Option ObjectInfo :=
      some { Size := Thumbnail, Name := thumbnailName, Reader := thumbBuf }
    return (origObj, thumbObj)
  else if img.Mime = "image/gif" then do
    let origBuf ← E.gifEncode img.OrigImage
    let origObj : Option ObjectInfo :=
      some { Size := Original, Name := origName, Reader := origBuf }
    let thumbBuf ← E.gifEncode img.Thumbnail
    let origObj : Option ObjectInfo :=
      some { Size := Thumbnail, Name := origName, Reader := origBuf }
    return (origObj, none)
  else
    .ok (none, none)

/-- Go source, lines 119-207: the preparation phase of `UploadImages` over the
whole batch, appending `origObj` and `thumbObj` (possibly `nil`) per image in
input order; an encoding error aborts immediately. -/
def prepareAll {Img : Type} (E : Encoders Img) (now : String) :
    List (Images Img) → Except GoError (List (Option ObjectInfo))
  | [] => .ok []
  | img :: rest => do
    let pair ← prepareImage E now img
    let others ← prepareAll E now rest
    return pair.1 :: pair.2 :: others

/-- Trivial always-succeeding encoders over a unit image type, used to
evaluate the preparation model on concrete inputs. -/
def unitEncoders : Encoders Unit where
  pngEncodeBest := fun _ => .ok "png-bytes"
  jpegEncode := fun _ _ => .ok "jpeg-bytes"
  gifEncode := fun _ => .ok "gif-bytes"

/-- Encoders over `Nat` images, to distinguish concrete distinct images. -/
def natEncoders : Encoders Nat where
  pngEncodeBest := fun n => .ok (String.mk (Nat.toDigits 10 n))
  jpegEncode := fun _ n => .ok (String.mk (Nat.toDigits 10 n))
  gifEncode := fun n => .ok (String.mk (Nat.toDigits 10 n))

/-! ### Concurrent batch uploader (`uploadMultiple`, lines 236-306)

`uploadMultiple` makes three channels: `quit` (closed to signal cancellation),
`errChan` and `linkChan` (both capacity 1).  The dispatch loop checks `quit`
with a non-blocking `select` and otherwise spawns a goroutine per task; each
goroutine runs `e.Upload` (external network call, an oracle here), on error
sends the error on `errChan` and then closes `quit`, on success sends `nil`
on `errChan` and the tagged link on `linkChan`.  The collector loops once per
*original* task (`for range objs`), receives from `errChan`, on a non-nil
error closes `quit` and returns the error, otherwise receives one `LinkInfo`
from `linkChan` and merges it by size class.  Closing an already-closed
channel panics in Go; the machine records that in `panicked`.  The scheduler
choice list `List Sched` stands for the nondeterministic interleaving. -/

/-- Go source, line 231-234: the externally visible result. -/
structure SortedLinks where
  Thumbnails : List String
  Original : List String
deriving DecidableEq, Repr

/-- Go source, line 240-243: the local `LinkInfo` type of `uploadMultiple`. -/
structure LinkInfo where
  Size : ImageSize
  Link : String
deriving DecidableEq, Repr

/-- Go source, lines 288-294: merge one collected link into the accumulator
(`append` to `Original` when the size is `Original`, to `Thumbnails` when it
is `Thumbnail`; two independent `if`s). -/
def mergeLink (sl : SortedLinks) (li : LinkInfo) : SortedLinks :=
  let sl1 :=
    if li.Size = Original then { sl with Original := sl.Original ++ [li.Link] }
    else sl
  if li.Size = Thumbnail then { sl1 with Thumbnails := sl1.Thumbnails ++ [li.Link] }
  else sl1

/-- The observable actions a spawned upload goroutine still has to perform. -/
inductive GAction where
  | sendErr (e : Option GoError)
  | sendLink (li : LinkInfo)
  | closeQuit
deriving DecidableEq, Repr

/-- Go source, lines 254-275: the goroutine body, given the result of the
(external) `e.Upload` call on its task: on error it sends the error and then
closes `quit`; on success it sends `nil` and then the tagged link. -/
def goBody (upload : ObjectInfo → Except GoError String) (obj : ObjectInfo) :
    List GAction :=
  match upload obj with
  | .error e => [.sendErr (some e), .closeQuit]
  | .ok link => [.sendErr none, .sendLink { Size := obj.Size, Link := link }]

/-- The collector/dispatcher control point of the main goroutine. -/
inductive MainPC where
  | dispatch (pending : List ObjectInfo)
  | recvErr (k : Nat) (sl : SortedLinks)
  | recvLink (k : Nat) (sl : SortedLinks)
  | errClose (sl : SortedLinks) (e : GoError)
  | ret (sl : SortedLinks) (e : Option GoError)
deriving DecidableEq, Repr

/-- The whole machine state of one `uploadMultiple` call. -/
structure MState where
  quitClosed : Bool
  errBuf : Option (Option GoError)
  linkBuf : Option LinkInfo
  goros : List (List GAction)
  main : MainPC
  total : Nat
  panicked : Bool
deriving DecidableEq, Repr

/-- A scheduler choice: step the main goroutine or the `i`-th spawned one. -/
inductive Sched where
  | mainStep
  | goStep (i : Nat)
deriving DecidableEq, Repr

/-- The state right after `uploadMultiple` sets up its channels (lines
236-247): nothing dispatched, `sl := SortedLinks{}`, the collector will later
loop `for range objs`, i.e. `objs.length` times. -/
def initState (objs : List ObjectInfo) : MState where
  quitClosed := false
  errBuf := none
  linkBuf := none
  goros := []
  main := .dispatch objs
  total := objs.length
  panicked := false

/-- One interleaving step of `uploadMultiple`.  `none` means the chosen
component cannot move (blocked on a channel, already finished, or the machine
already panicked).  Channel semantics follow Go: a capacity-1 send needs an
empty buffer, a receive needs a full one, receiving from the closed `quit`
always succeeds (the dispatch `select` then breaks the loop), and `close` of
an already-closed channel panics. -/
def step (upload : ObjectInfo → Except GoError String) (s : MState) (c : Sched) :
    Option MState :=
  if s.panicked then none
  else
    match c with
    | .mainStep =>
      match s.main with
      | .dispatch (o :: rest) =>
          if s.quitClosed then
            some { s with main := .recvErr s.total { Thumbnails := [], Original := [] } }
          else
            some { s with goros := s.goros ++ [goBody upload o], main := .dispatch rest }
      | .dispatch [] =>
          some { s with main := .recvErr s.total { Thumbnails := [], Original := [] } }
      | .recvErr 0 sl => some { s with main := .ret sl none }
      | .recvErr (k + 1) sl =>
          match s.errBuf with
          | some v =>
              some { s with errBuf := none,
                            main := match v with
                                    | some e => .errClose sl e
                                    | none => .recvLink (k + 1) sl }
          | none => none
      | .recvLink k sl =>
          match s.linkBuf with
          | some li =>
              some { s with linkBuf := none, main := .recvErr (k - 1) (mergeLink sl li) }
          | none => none
      | .errClose sl e =>
          if s.quitClosed then some { s with panicked := true }
          else some { s with quitClosed := true, main := .ret sl (some e) }
      | .ret _ _ => none
    | .goStep i =>
      match s.goros[i]? with
      | some (a :: rest) =>
          match a with
          | .sendErr v =>
              match s.errBuf with
              | none => some { s with errBuf := some v, goros := s.goros.set i rest }
              | some _ => none
          | .sendLink li =>
              match s.linkBuf with
              | none => some { s with linkBuf := some li, goros := s.goros.set i rest }
              | some _ => none
          | .closeQuit =>
              if s.quitClosed then
                some { s with panicked := true, goros := s.goros.set i rest }
              else
                some { s with quitClosed := true, goros := s.goros.set i rest }
      | _ => none

/-- Run a finite schedule; `none` when some chosen step is blocked. -/
def run (upload : ObjectInfo → Except GoError String) :
    MState → List Sched → Option MState
  | s, [] => some s
  | s, c :: rest =>
      match step upload s c with
      | some s2 => run upload s2 rest
      | none => none

/-- What the call returned, when it did return: `. ret` carries the
`(SortedLinks, error)` pair of lines 283 / 305. -/
def MState.outcome (s : MState) : Option (SortedLinks × Option GoError) :=
  match s.main with
  | .ret sl e => some (sl, e)
  | _ => none

/-- Go source, lines 279-295 on the all-success path: the collector runs one
iteration per task, each receiving a `nil` error and then one `LinkInfo`, and
merges the links in arrival order onto the empty accumulator of line 246.
Because completion order is nondeterministic, the arrival list is an arbitrary
permutation of the links the tasks report. -/
def collectLinks (arrivals : List LinkInfo) : SortedLinks :=
  arrivals.foldl mergeLink { Thumbnails := [], Original := [] }

/-- The `LinkInfo` each successfully uploading task reports (lines 269-273). -/
def successLinks (upload : ObjectInfo → Except GoError String)
    (objs : List ObjectInfo) : List LinkInfo :=
  objs.filterMap fun o =>
    match upload o with
    | .ok link => some { Size := o.Size, Link := link }
    | .error _ => none

/-- A task whose upload succeeds, for concrete executions. -/
def taskA : ObjectInfo := { Size := Original, Name := "a", Reader := "pa" }

/-- A second task, thumbnail-sized, for concrete executions. -/
def taskB : ObjectInfo := { Size := Thumbnail, Name := "b", Reader := "pb" }

/-- Upload oracle where every task succeeds with a link derived from its name. -/
def demoUpload : ObjectInfo → Except GoError String :=
  fun o => .ok ("L" ++ o.Name)

/-- Upload oracle where every task fails. -/
def failUpload : ObjectInfo → Except GoError String :=
  fun _ => .error "transport error"

/-- Upload oracle where task `"b"` fails and the others succeed. -/
def mixedUpload : ObjectInfo → Except GoError String :=
  fun o => if o.Name = "b" then .error "transport error" else .ok ("L" ++ o.Name)

theorem splitDot_ne_nil (l : List Char) : splitDot l ≠ [] := by
  induction l with
  | nil => simp [splitDot]
  | cons c cs ih =>
      cases h : splitDot cs with
      | nil => exact absurd h ih
      | cons a t =>
          simp only [splitDot, h]
          split <;> simp

theorem splitDot_of_not_mem (p : List Char) (hp : '.' ∉ p) : splitDot p = [p] := by
  induction p with
  | nil => rfl
  | cons c cs ih =>
      have hc : c ≠ '.' := fun h => hp (h ▸ List.mem_cons_self c cs)
      have hcs : '.' ∉ cs := fun h => hp (List.mem_cons_of_mem c h)
      simp [splitDot, ih hcs, hc]

theorem splitDot_append_dot (p : List Char) (l : List Char) (hp : '.' ∉ p) :
    splitDot (p ++ '.' :: l) = p :: splitDot l := by
  induction p with
  | nil =>
      cases h : splitDot l with
      | nil => exact absurd h (splitDot_ne_nil l)
      | cons a t => simp [splitDot, h]
  | cons c cs ih =>
      have hc : c ≠ '.' := fun h => hp (h ▸ List.mem_cons_self c cs)
      have hcs : '.' ∉ cs := fun h => hp (List.mem_cons_of_mem c h)
      simp [splitDot, ih hcs, hc]

theorem splitDot_joinDot (parts : List (List Char)) (hne : parts ≠ [])
    (hfree : ∀ p ∈ parts, '.' ∉ p) : splitDot (joinDot parts) = parts := by
  induction parts with
  | nil => exact absurd rfl hne
  | cons p rest ih =>
      cases rest with
      | nil =>
          exact splitDot_of_not_mem p (hfree p (List.mem_cons_self p []))
      | cons q rest' =>
          have hp : '.' ∉ p := hfree p (List.mem_cons_self _ _)
          have hrest : ∀ x ∈ q :: rest', '.' ∉ x := fun x hx =>
            hfree x (List.mem_cons_of_mem p hx)
          simp only [joinDot, splitDot_append_dot p _ hp]
          rw [ih (by simp) hrest]

/-- **C9**: For every filename containing two or more dots (here: built from a
first segment `a`, a non-empty list `mid` of middle segments and a last segment
`ext`, all dot-free), `AppendUnixTimeStampToFilename` uses only the first
segment as the stem and the last segment as the extension, drops all middle
segments, and returns `stem ++ "_" ++ now ++ "." ++ ext`, where `now` is the
`YYYYMMDDhhmmss` wall-clock stamp. -/
theorem stamp_multidot (now : String) (a : List Char) (mid : List (List Char))
    (ext : List Char) (hmid : mid ≠ []) (ha : '.' ∉ a) (hext : '.' ∉ ext)
    (hm : ∀ m ∈ mid, '.' ∉ m) :
    AppendUnixTimeStampToFilename now (String.mk (joinDot (a :: mid ++ [ext])))
      = String.mk a ++ "_" ++ now ++ "." ++ String.mk ext := by
  have hfree : ∀ p ∈ a :: mid ++ [ext], '.' ∉ p := by
    intro p hp
    rcases List.mem_cons.mp hp with h | h
    · exact h ▸ ha
    · rcases List.mem_append.mp h with h' | h'
      · exact hm p h'
      · rcases List.mem_singleton.mp h' with rfl
        exact hext
  have hsplit : splitDot (joinDot (a :: mid ++ [ext])) = a :: mid ++ [ext] :=
    splitDot_joinDot _ (by simp) hfree
  simp only [AppendUnixTimeStampToFilename, hsplit]
  have hhead : (a :: mid ++ [ext]).headD ([] : List Char) = a := rfl
  have hlast : (a :: mid ++ [ext]).getLastD ([] : List Char) = ext := by
    have h0 : a :: mid ++ [ext] = (a :: mid) ++ [ext] := rfl
    rw [h0, List.getLastD_concat]
  rw [hhead, hlast]

/-- Witness for `stamp_multidot`: `"a.b.c"` stamps to `"a_20240101120000.c"`. -/
theorem stamp_multidot_witness :
    AppendUnixTimeStampToFilename "20240101120000"
        (String.mk (joinDot [['a'], ['b'], ['c']]))
      = String.mk ['a'] ++ "_" ++ "20240101120000" ++ "." ++ String.mk ['c'] :=
  stamp_multidot "20240101120000" ['a'] [['b']] ['c'] (by decide) (by decide)
    (by decide) (by decide)

/-- **C10**: For every filename with no dot at all, the single split segment
serves as both stem and extension: the result is
`filename ++ "_" ++ now ++ "." ++ filename`. -/
theorem stamp_no_dot (now : String) (filename : String)
    (h : '.' ∉ filename.data) :
    AppendUnixTimeStampToFilename now filename
      = filename ++ "_" ++ now ++ "." ++ filename := by
  have hsplit : splitDot filename.data = [filename.data] :=
    splitDot_of_not_mem _ h
  simp only [AppendUnixTimeStampToFilename, hsplit, List.headD, List.getLastD]
  cases filename
  rfl

/-- Witness for `stamp_no_dot`: `"name"` stamps to `"name_20240101120000.name"`. -/
theorem stamp_no_dot_witness :
    AppendUnixTimeStampToFilename "20240101120000" "name"
      = "name" ++ "_" ++ "20240101120000" ++ "." ++ "name" :=
  stamp_no_dot "20240101120000" "name" (by decide)

theorem utf8Bytes_ascii (c : Char) (h : c.toNat < 128) : utf8Bytes c = [c.toNat] := by
  unfold utf8Bytes
  simp [h]

theorem strBytes_ascii (l : List Char) (h : ∀ c ∈ l, c.toNat < 128) :
    (String.mk l).data.flatMap utf8Bytes = l.map Char.toNat := by
  induction l with
  | nil => rfl
  | cons c cs ih =>
      have hc := h c (List.mem_cons_self _ _)
      have hcs := fun x hx => h x (List.mem_cons_of_mem c hx)
      simp only [List.flatMap_cons, List.map_cons, utf8Bytes_ascii c hc]
      rw [ih hcs]
      rfl

theorem escapePathBytes_safe (bs : List Nat)
    (h : ∀ b ∈ bs, shouldEscapePath b = false) : escapePathBytes bs = bs := by
  induction bs with
  | nil => rfl
  | cons b rest ih =>
      have hb := h b (List.mem_cons_self _ _)
      have hrest := fun x hx => h x (List.mem_cons_of_mem b hx)
      simp [escapePathBytes, hb] at ih ⊢
      exact ih hrest

theorem bytesToString_map_toNat (l : List Char) :
    bytesToString (l.map Char.toNat) = String.mk l := by
  simp [bytesToString, List.map_map, Function.comp_def, Char.ofNat_toNat]

/-- **C8, counterexample**: the formatter escapes bytes the path escaper deems
unsafe — on object name `"a b.png"` (a space) the result is
`.../bucket/a%20b.png`, not the raw concatenation with the space, so the
claimed "no escaping" output law is false. -/
theorem ObjectLink_escapes_space :
    ObjectLink "bucket" "a b.png"
        = "https://storage.googleapis.com/bucket/a%20b.png"
      ∧ ObjectLink "bucket" "a b.png"
        ≠ "https://" ++ GCSPublicHost ++ "/" ++ "bucket" ++ "/" ++ "a b.png" := by
  constructor <;> decide

/-- **C8, amended**: when the bucket is non-empty, does not start with `'/'`,
and every character of bucket and object name is left intact by the Go path
escaper (ASCII alphanumerics, `-_.~` and `$&+,/:;=@`), the formatter returns
exactly `"https://" ++ GCSPublicHost ++ "/" ++ bucket ++ "/" ++ objectName`,
deterministically and with no query parameters; other bytes are
percent-escaped. -/
theorem ObjectLink_safe_eq (bucket objName : String)
    (hb : ∀ c ∈ bucket.data, pathSafeChar c = true)
    (hn : ∀ c ∈ objName.data, pathSafeChar c = true)
    (hne : bucket.data ≠ [])
    (hfirst : bucket.data.headD ' ' ≠ '/') :
    ObjectLink bucket objName
      = "https://" ++ GCSPublicHost ++ "/" ++ bucket ++ "/" ++ objName := by
  have hall : ∀ c ∈ bucket.data ++ '/' :: objName.data, pathSafeChar c = true := by
    intro c hc
    rcases List.mem_append.mp hc with h | h
    · exact hb c h
    · rcases List.mem_cons.mp h with rfl | h'
      · decide
      · exact hn c h'
  have hascii : ∀ c ∈ bucket.data ++ '/' :: objName.data, c.toNat < 128 := by
    intro c hc
    have := hall c hc
    simp [pathSafeChar] at this
    exact this.1
  have hdata : (bucket ++ "/" ++ objName).data = bucket.data ++ '/' :: objName.data := by
    rw [String.data_append, String.data_append, List.append_assoc]
    rfl
  have hbytes : strBytes (bucket ++ "/" ++ objName)
      = (bucket.data ++ '/' :: objName.data).map Char.toNat := by
    have := strBytes_ascii (bucket.data ++ '/' :: objName.data) hascii
    simpa [strBytes, hdata] using this
  have hsafe : ∀ b ∈ (bucket.data ++ '/' :: objName.data).map Char.toNat,
      shouldEscapePath b = false := by
    intro b hbm
    rcases List.mem_map.mp hbm with ⟨c, hc, rfl⟩
    have := hall c hc
    simp [pathSafeChar] at this
    exact this.2
  have hep : escapePathBytes (strBytes (bucket ++ "/" ++ objName))
      = (bucket.data ++ '/' :: objName.data).map Char.toNat := by
    rw [hbytes]
    exact escapePathBytes_safe _ hsafe
  obtain ⟨c0, rest, hrest⟩ : ∃ c0 rest, bucket.data = c0 :: rest := by
    cases h : bucket.data with
    | nil => exact absurd h hne
    | cons a t => exact ⟨a, t, rfl⟩
  have hc0 : c0 ≠ '/' := by
    intro h
    apply hfirst
    rw [hrest, h]
    rfl
  have hhead : ((bucket.data ++ '/' :: objName.data).map Char.toNat).headD 0 = c0.toNat := by
    rw [hrest]
    rfl
  have hc0ne : c0.toNat ≠ 47 := by
    intro h
    apply hc0
    rw [← Char.ofNat_toNat c0, h]
  have hcond : (escapePathBytes (strBytes (bucket ++ "/" ++ objName)) ≠ [] ∧
      (escapePathBytes (strBytes (bucket ++ "/" ++ objName))).headD 0 ≠ 47) := by
    rw [hep]
    constructor
    · rw [hrest]
      simp
    · rw [hhead]
      exact hc0ne
  have hback : bytesToString ((bucket.data ++ '/' :: objName.data).map Char.toNat)
      = String.mk (bucket.data ++ '/' :: objName.data) :=
    bytesToString_map_toNat _
  show "https://" ++ GCSPublicHost ++
      (if escapePathBytes (strBytes (bucket ++ "/" ++ objName)) ≠ [] ∧
          (escapePathBytes (strBytes (bucket ++ "/" ++ objName))).headD 0 ≠ 47
        then "/" else "") ++ bytesToString (escapePathBytes (strBytes (bucket ++ "/" ++ objName)))
      = "https://" ++ GCSPublicHost ++ "/" ++ bucket ++ "/" ++ objName
  rw [if_pos hcond, hep, hback]
  have hmk : String.mk (bucket.data ++ '/' :: objName.data) = bucket ++ "/" ++ objName := by
    rw [← hdata]
  rw [hmk]
  simp [String.append_assoc]

/-- Witness for `ObjectLink_safe_eq` at bucket `"bkt"`, object `"img.png"`. -/
theorem ObjectLink_safe_eq_witness :
    ObjectLink "bkt" "img.png"
      = "https://" ++ GCSPublicHost ++ "/" ++ "bkt" ++ "/" ++ "img.png" :=
  ObjectLink_safe_eq "bkt" "img.png" (by decide) (by decide) (by decide) (by decide)

/-- **C3**: refuted on the code — an image whose mime is none of
`image/png`, `image/jpeg`, `image/gif` produces *no* `UnsupportedFormat`
error: the `switch` has no default case, so preparation returns success with
two `nil` tasks, which `UploadImages` then hands to `uploadMultiple` (where
the upload goroutine dereferences the `nil` pointer). -/
theorem prepare_unsupported_no_error {Img : Type} (E : Encoders Img)
    (now : String) (img : Images Img) (h1 : img.Mime ≠ "image/png")
    (h2 : img.Mime ≠ "image/jpeg") (h3 : img.Mime ≠ "image/gif") :
    prepareAll E now [img] = .ok [none, none] := by
  simp [prepareAll, prepareImage, h1, h2, h3]
  rfl

/-- Witness for `prepare_unsupported_no_error`: a `image/webp` input. -/
theorem prepare_unsupported_no_error_witness :
    prepareAll unitEncoders "20240101120000"
        [{ Name := "doc.webp", Mime := "image/webp", OrigImage := (), Thumbnail := () }]
      = .ok [none, none] :=
  prepare_unsupported_no_error unitEncoders "20240101120000" _
    (by decide) (by decide) (by decide)

/-- **C4**: refuted on the code for `image/gif` — when both gif encodings
succeed, the image yields a *single* non-`nil` task, labelled `Thumbnail` but
carrying the original's destination name and the original's bytes, plus a
`nil` task; no `Original`-labelled task is emitted. -/
theorem prepare_gif_mislabels {Img : Type} (E : Encoders Img) (now : String)
    (img : Images Img) (hm : img.Mime = "image/gif") (b1 b2 : String)
    (h1 : E.gifEncode img.OrigImage = .ok b1)
    (h2 : E.gifEncode img.Thumbnail = .ok b2) :
    prepareImage E now img
      = .ok (some { Size := Thumbnail, Name := origTaskName now img.Name,
                    Reader := b1 }, none) := by
  simp [prepareImage, hm, h1, h2]
  rfl

/-- Witness for `prepare_gif_mislabels`: a concrete gif input. -/
theorem prepare_gif_mislabels_witness :
    prepareImage unitEncoders "20240101120000"
        { Name := "anim.gif", Mime := "image/gif", OrigImage := (), Thumbnail := () }
      = .ok (some { Size := Thumbnail,
                    Name := origTaskName "20240101120000" "anim.gif",
                    Reader := "gif-bytes" }, none) :=
  prepare_gif_mislabels unitEncoders "20240101120000" _ rfl "gif-bytes" "gif-bytes"
    rfl rfl

/-- **C7**: refuted on the code — two *different* input images that share a
base filename and are stamped within the same wall-clock second (`now` is the
second-resolution stamp both calls observe) receive *identical* destination
names: both original tasks are named `origTaskName now i1.Name` and both
thumbnail tasks `thumbTaskName now i1.Name`. -/
theorem prepare_same_name_same_second_collides {Img : Type} (E : Encoders Img)
    (now : String) (i1 i2 : Images Img) (hm1 : i1.Mime = "image/png")
    (hm2 : i2.Mime = "image/png") (hname : i1.Name = i2.Name)
    (b1 c1 b2 c2 : String)
    (h1 : E.pngEncodeBest i1.OrigImage = .ok b1)
    (h1t : E.pngEncodeBest i1.Thumbnail = .ok c1)
    (h2 : E.pngEncodeBest i2.OrigImage = .ok b2)
    (h2t : E.pngEncodeBest i2.Thumbnail = .ok c2) :
    prepareImage E now i1
        = .ok (some { Size := Original, Name := origTaskName now i1.Name, Reader := b1 },
               some { Size := Thumbnail, Name := thumbTaskName now i1.Name, Reader := c1 })
      ∧ prepareImage E now i2
        = .ok (some { Size := Original, Name := origTaskName now i1.Name, Reader := b2 },
               some { Size := Thumbnail, Name := thumbTaskName now i1.Name, Reader := c2 }) := by
  constructor
  · simp [prepareImage, hm1, h1, h1t]
    rfl
  · rw [hname]
    simp [prepareImage, hm2, h2, h2t]
    rfl

/-- Witness for `prepare_same_name_same_second_collides`: two distinct images
both called `a.png`, prepared in the same second, collide on both names. -/
theorem prepare_same_name_same_second_collides_witness :
    prepareImage natEncoders "20240101120000"
        { Name := "a.png", Mime := "image/png", OrigImage := 0, Thumbnail := 1 }
        = .ok (some { Size := Original, Name := origTaskName "20240101120000" "a.png", Reader := "0" },
               some { Size := Thumbnail, Name := thumbTaskName "20240101120000" "a.png", Reader := "1" })
      ∧ prepareImage natEncoders "20240101120000"
        { Name := "a.png", Mime := "image/png", OrigImage := 2, Thumbnail := 3 }
        = .ok (some { Size := Original, Name := origTaskName "20240101120000" "a.png", Reader := "2" },
               some { Size := Thumbnail, Name := thumbTaskName "20240101120000" "a.png", Reader := "3" }) :=
  prepare_same_name_same_second_collides natEncoders "20240101120000"
    { Name := "a.png", Mime := "image/png", OrigImage := 0, Thumbnail := 1 }
    { Name := "a.png", Mime := "image/png", OrigImage := 2, Thumbnail := 3 }
    rfl rfl rfl "0" "1" "2" "3" rfl rfl rfl rfl

theorem Original_ne_Thumbnail : Original ≠ Thumbnail := by decide

theorem Thumbnail_ne_Original : Thumbnail ≠ Original := by decide

theorem mergeLink_Original (sl : SortedLinks) (li : LinkInfo) :
    (mergeLink sl li).Original
      = if li.Size = Original then sl.Original ++ [li.Link] else sl.Original := by
  unfold mergeLink
  by_cases h1 : li.Size = Original <;> by_cases h2 : li.Size = Thumbnail <;>
    simp [h1, h2, Original_ne_Thumbnail, Thumbnail_ne_Original]

theorem mergeLink_Thumbnails (sl : SortedLinks) (li : LinkInfo) :
    (mergeLink sl li).Thumbnails
      = if li.Size = Thumbnail then sl.Thumbnails ++ [li.Link] else sl.Thumbnails := by
  unfold mergeLink
  by_cases h1 : li.Size = Original <;> by_cases h2 : li.Size = Thumbnail <;>
    simp [h1, h2, Original_ne_Thumbnail, Thumbnail_ne_Original]

theorem foldl_mergeLink_Original (l : List LinkInfo) :
    ∀ init : SortedLinks, (l.foldl mergeLink init).Original
      = init.Original ++ (l.filter fun li => li.Size == Original).map LinkInfo.Link := by
  induction l with
  | nil => intro init; simp
  | cons li l ih =>
      intro init
      rw [List.foldl_cons, ih, mergeLink_Original, List.filter_cons]
      by_cases h : li.Size = Original
      · simp [h, List.append_assoc]
      · simp [h]

theorem foldl_mergeLink_Thumbnails (l : List LinkInfo) :
    ∀ init : SortedLinks, (l.foldl mergeLink init).Thumbnails
      = init.Thumbnails ++ (l.filter fun li => li.Size == Thumbnail).map LinkInfo.Link := by
  induction l with
  | nil => intro init; simp
  | cons li l ih =>
      intro init
      rw [List.foldl_cons, ih, mergeLink_Thumbnails, List.filter_cons]
      by_cases h : li.Size = Thumbnail
      · simp [h, List.append_assoc]
      · simp [h]

theorem length_filter_size_split :
    ∀ l : List LinkInfo, (∀ li ∈ l, li.Size = Original ∨ li.Size = Thumbnail) →
      (l.filter fun li => li.Size == Original).length
        + (l.filter fun li => li.Size == Thumbnail).length = l.length := by
  intro l
  induction l with
  | nil => intro _; rfl
  | cons li rest ih =>
      intro h
      have hrest := ih fun x hx => h x (List.mem_cons_of_mem _ hx)
      rw [List.filter_cons, List.filter_cons]
      rcases h li (List.mem_cons_self _ _) with h1 | h1
      · have h2 : ¬ li.Size = Thumbnail := by rw [h1]; decide
        simp only [h1, h2, Original_ne_Thumbnail, Thumbnail_ne_Original]
        simp [Original_ne_Thumbnail, Thumbnail_ne_Original, hrest]
        omega
      · have h2 : ¬ li.Size = Original := by rw [h1]; decide
        simp only [h1, h2, Original_ne_Thumbnail, Thumbnail_ne_Original]
        simp [Original_ne_Thumbnail, Thumbnail_ne_Original, hrest]
        omega

theorem successLinks_length (upload : ObjectInfo → Except GoError String) :
    ∀ objs : List ObjectInfo, (∀ o ∈ objs, ∃ link, upload o = .ok link) →
      (successLinks upload objs).length = objs.length := by
  intro objs
  induction objs with
  | nil => intro _; rfl
  | cons o rest ih =>
      intro hok
      obtain ⟨link, hl⟩ := hok o (List.mem_cons_self _ _)
      have hrest := ih fun x hx => hok x (List.mem_cons_of_mem _ hx)
      simp [successLinks, List.filterMap_cons, hl]
      simpa [successLinks] using hrest

theorem successLinks_sizes (upload : ObjectInfo → Except GoError String)
    (objs : List ObjectInfo)
    (hsize : ∀ o ∈ objs, o.Size = Original ∨ o.Size = Thumbnail) :
    ∀ li ∈ successLinks upload objs, li.Size = Original ∨ li.Size = Thumbnail := by
  intro li hli
  rcases List.mem_filterMap.mp hli with ⟨o, ho, hf⟩
  cases hup : upload o with
  | error e => rw [hup] at hf; simp at hf
  | ok link =>
      rw [hup] at hf
      have hli2 : li = { Size := o.Size, Link := link } := by
        simpa using hf.symm
      rw [hli2]
      exact hsize o ho

/-- **C5**: for a batch in which every dispatched task's upload succeeds (and
every task carries one of the two size classes), whatever order the collector
receives the links in (any permutation of the tasks' reported links), the
resulting `SortedLinks` satisfies `len(originals) + len(thumbnails) = number
of dispatched tasks`, and each task's link lands in the partition matching its
size class. -/
theorem all_success_partition (upload : ObjectInfo → Except GoError String)
    (objs : List ObjectInfo) (arrivals : List LinkInfo)
    (hsize : ∀ o ∈ objs, o.Size = Original ∨ o.Size = Thumbnail)
    (hok : ∀ o ∈ objs, ∃ link, upload o = .ok link)
    (hperm : arrivals.Perm (successLinks upload objs)) :
    (collectLinks arrivals).Original.length
        + (collectLinks arrivals).Thumbnails.length = objs.length
      ∧ ∀ o ∈ objs, ∀ link, upload o = .ok link →
          (o.Size = Original → link ∈ (collectLinks arrivals).Original)
          ∧ (o.Size = Thumbnail → link ∈ (collectLinks arrivals).Thumbnails) := by
  have hO : (collectLinks arrivals).Original
      = (arrivals.filter fun li => li.Size == Original).map LinkInfo.Link := by
    have h := foldl_mergeLink_Original arrivals { Thumbnails := [], Original := [] }
    simpa [collectLinks] using h
  have hT : (collectLinks arrivals).Thumbnails
      = (arrivals.filter fun li => li.Size == Thumbnail).map LinkInfo.Link := by
    have h := foldl_mergeLink_Thumbnails arrivals { Thumbnails := [], Original := [] }
    simpa [collectLinks] using h
  have hsizes : ∀ li ∈ arrivals, li.Size = Original ∨ li.Size = Thumbnail := by
    intro li hli
    exact successLinks_sizes upload objs hsize li (hperm.mem_iff.mp hli)
  constructor
  · rw [hO, hT, List.length_map, List.length_map,
      length_filter_size_split arrivals hsizes, hperm.length_eq]
    exact successLinks_length upload objs hok
  · intro o ho link hup
    have hmemS : ({ Size := o.Size, Link := link } : LinkInfo)
        ∈ successLinks upload objs := by
      unfold successLinks
      exact List.mem_filterMap.mpr ⟨o, ho, by simp [hup]⟩
    have hmem : ({ Size := o.Size, Link := link } : LinkInfo) ∈ arrivals :=
      hperm.mem_iff.mpr hmemS
    constructor
    · intro hsz
      rw [hO]
      refine List.mem_map.mpr ⟨{ Size := o.Size, Link := link }, ?_, rfl⟩
      exact List.mem_filter.mpr ⟨hmem, by simp [hsz]⟩
    · intro hsz
      rw [hT]
      refine List.mem_map.mpr ⟨{ Size := o.Size, Link := link }, ?_, rfl⟩
      exact List.mem_filter.mpr ⟨hmem, by simp [hsz]⟩

/-- Witness for `all_success_partition`: two tasks, links collected in
reversed completion order. -/
theorem all_success_partition_witness :
    (collectLinks [{ Size := Thumbnail, Link := "Lb" }, { Size := Original, Link := "La" }]).Original.length
        + (collectLinks [{ Size := Thumbnail, Link := "Lb" }, { Size := Original, Link := "La" }]).Thumbnails.length
        = [taskA, taskB].length
      ∧ ∀ o ∈ [taskA, taskB], ∀ link, demoUpload o = .ok link →
          (o.Size = Original →
            link ∈ (collectLinks [{ Size := Thumbnail, Link := "Lb" }, { Size := Original, Link := "La" }]).Original)
          ∧ (o.Size = Thumbnail →
            link ∈ (collectLinks [{ Size := Thumbnail, Link := "Lb" }, { Size := Original, Link := "La" }]).Thumbnails) :=
  all_success_partition demoUpload [taskA, taskB]
    [{ Size := Thumbnail, Link := "Lb" }, { Size := Original, Link := "La" }]
    (by decide) (fun o _ => ⟨"L" ++ o.Name, rfl⟩) (by decide)

/-- **C2** refuted on the code: the `quit` channel is not protected against
double close.  On a single failing task the failing goroutine performs
`close(quit)` (line 264) and the collector, on receiving the error, performs
`close(quit)` again (line 281); under the schedule below the collector's
close finds the channel already closed and the machine panics (Go: close of
closed channel) — the second write attempt is not a no-op. -/
theorem quit_double_close_panics :
    run failUpload (initState [{ Size := Original, Name := "a.png", Reader := "pa" }])
        [.mainStep, .goStep 0, .goStep 0, .mainStep, .mainStep, .mainStep]
      = some { quitClosed := true, errBuf := none, linkBuf := none, goros := [[]],
               main := .errClose { Thumbnails := [], Original := [] } "transport error",
               total := 1, panicked := true } := by
  decide

/-- **C1** refuted on the code: a batch containing a failing task need not
return the first error as its outcome.  Under the schedule below (the failing
goroutine's `close(quit)` runs before the collector's) `uploadMultiple`
panics on the double close and never reaches its `return sl, err`: the final
state is panicked with no outcome at all.  (It also never returns a
non-error `SortedLinks`.) -/
theorem failing_batch_panics_without_error_return :
    ((run failUpload (initState [{ Size := Original, Name := "b.png", Reader := "pb" }])
        [.mainStep, .goStep 0, .goStep 0, .mainStep, .mainStep, .mainStep]).map
      fun s => (s.panicked, s.outcome)) = some (true, none) := by
  decide

/-- **C6** on the code: in both schedules below the collector, once it
receives task B's error, merges no further success — task A's link, merged
before the failure was observed, is all the accumulator holds.  But "the
batch outcome is the error" fails: in the first schedule the collector's own
`close(quit)` (line 281) follows the failing goroutine's (line 264) and
panics before `return sl, err` executes; in the second the collector does
return the error first, yet the goroutine's still-pending close then panics
the process. -/
theorem observed_failure_stops_merging_but_panics :
    run mixedUpload (initState [taskA, taskB])
        [.mainStep, .mainStep, .mainStep, .goStep 0, .mainStep, .goStep 0,
          .mainStep, .goStep 1, .goStep 1, .mainStep, .mainStep]
      = some { quitClosed := true, errBuf := none, linkBuf := none,
               goros := [[], []],
               main := .errClose { Thumbnails := [], Original := ["La"] } "transport error",
               total := 2, panicked := true }
    ∧ run mixedUpload (initState [taskA, taskB])
        [.mainStep, .mainStep, .mainStep, .goStep 0, .mainStep, .goStep 0,
          .mainStep, .goStep 1, .mainStep, .mainStep, .goStep 1]
      = some { quitClosed := true, errBuf := none, linkBuf := none,
               goros := [[], []],
               main := .ret { Thumbnails := [], Original := ["La"] } (some "transport error"),
               total := 2, panicked := true } := by
  constructor <;> decide

/-- Sanity link between the step machine and the collector fold: on an
all-success batch the machine returns exactly `collectLinks` of the links in
arrival order, with no panic and a `nil` error. -/
theorem run_all_success_matches_collect :
    ((run demoUpload (initState [taskA, taskB])
        [.mainStep, .mainStep, .mainStep, .goStep 0, .mainStep, .goStep 0,
          .mainStep, .goStep 1, .mainStep, .goStep 1, .mainStep, .mainStep]).bind
      MState.outcome)
      = some (collectLinks [{ Size := Original, Link := "La" },
                            { Size := Thumbnail, Link := "Lb" }], none) := by
  decide

